import Mathlib

/-!
Shallow embedding of the react-form-schema core (the FormSchema state engine,
its error store and its error-shape normalization) and proofs about the
validation dispatcher, the error store and the raw-input store.

The external Zod engine is opaque: one invocation of safeParseAsync either
succeeds with parsed data, fails with a list of issues, or throws; this is the
EngineResult type below. All definitions mirror the TypeScript source; JS
truthiness on optional strings (undefined and the empty string are falsy) is
made explicit through jsTruthyStr.
-/

/-- FieldError record (src/types): dotted path, machine code, optional message
and optional origin. The params field carries arbitrary engine extras and is
not modelled. -/
structure FieldError where
  path : String
  code : String
  message : Option String
  origin : Option String
deriving DecidableEq

/-- Issue reported by the engine inside a ZodError: an ordered list of path
segments, a code, an optional message and an optional origin. -/
structure Issue where
  path : List String
  code : String
  message : Option String
  origin : Option String
deriving DecidableEq

/-- Result of one engine invocation (safeParseAsync): success with parsed
data, failure with a list of issues, or a thrown exception carrying its
message string. -/
inductive EngineResult (b : Type) where
  | ok (data : b)
  | issues (il : List Issue)
  | exn (msg : String)
deriving DecidableEq

/-- JS truthiness of a string-or-undefined value: undefined and the empty
string are falsy. -/
def jsTruthyStr : Option String → Bool
  | none => false
  | some s => !(s == "")

/-- JS template interpolation of a string-or-undefined value: undefined
prints as the literal word undefined. -/
def jsInterp : Option String → String
  | none => "undefined"
  | some s => s

/-- Modelled from the spec: the constants module defining ValidationCode is
not included under src (only imported); per the spec the unknown-field code
is FIELD_UNKNOWN. -/
def ValidationCode.FIELD_UNKNOWN : String := "FIELD_UNKNOWN"

/-- Modelled from the spec: the constants module defining ValidationCode is
not included under src (only imported); per the spec the unexpected-error
code is UNEXPECTED. -/
def ValidationCode.UNEXPECTED : String := "UNEXPECTED"

/-- Aggregate error object (class ValidationError in src/errors): the list of
FieldError plus the final message. The originalError slot is not modelled. -/
structure ValidationErr where
  fields : List FieldError
  message : String
deriving DecidableEq

/-- Default message generated by the ValidationError constructor: the
path-colon-message pairs joined with comma-space, or the fallback text when
that joined string is empty. -/
def defaultMessage (fields : List FieldError) : String :=
  let joined := String.intercalate ", "
    (fields.map (fun f => f.path ++ ": " ++ jsInterp f.message))
  if joined == "" then "Validation failed." else joined

/-- ValidationError construction without an explicit message argument, which
is every call site inside FormSchema (the unknown-field site passes its text
in the originalError slot, so the default message applies there too). -/
def mkValidationErr (fields : List FieldError) : ValidationErr :=
  { fields := fields, message := defaultMessage fields }

/-- Dotted path of an issue, (issue.path or []).join in buildValidationError
and in the refined-field filter. -/
def joinPath (p : List String) : String := String.intercalate "." p

/-- Combined code in buildValidationError: when the origin is truthy, origin
and the issue code are joined with a dot after empty components are filtered
out; otherwise the issue code alone. -/
def combinedCode (origin : Option String) (code : String) : String :=
  if jsTruthyStr origin then
    if code == "" then origin.getD "" else origin.getD "" ++ "." ++ code
  else code

/-- Conversion of one engine issue into a FieldError, the ZodError branch of
buildValidationError; note that the field argument of buildValidationError is
ignored in this branch. -/
def issueToFieldError (i : Issue) : FieldError :=
  { path := joinPath i.path
    code := combinedCode i.origin i.code
    message := i.message
    origin := i.origin }

/-- Function buildValidationError applied to a ZodError: every issue is
mapped to a FieldError and the aggregate carries the default message. -/
def buildValidationErrorIssues (il : List Issue) : ValidationErr :=
  mkValidationErr (il.map issueToFieldError)

/-- Function buildValidationError applied to a non-ZodError exception: one
UNEXPECTED FieldError, at the field path when the field argument is truthy,
else at the form-level empty path; an empty exception message falls back to a
fixed text. -/
def buildValidationErrorGeneric (field : Option String) (msg : String) :
    ValidationErr :=
  if jsTruthyStr field then
    mkValidationErr [{ path := field.getD ""
                       code := ValidationCode.UNEXPECTED
                       message := some (if msg == "" then
                         "An unexpected error occurred." else msg)
                       origin := none }]
  else
    mkValidationErr [{ path := ""
                       code := ValidationCode.UNEXPECTED
                       message := some (if msg == "" then
                         "An unexpected error occurred during validation." else msg)
                       origin := none }]

/-- Error store (class FormErrorManager in src/core): the ordered list of
field errors. -/
structure FormErrorManager where
  errors : List FieldError
deriving DecidableEq

/-- Method hasError: with a falsy path argument (absent or the empty string)
it reports whether any error exists at all; otherwise whether some stored
error has exactly that path. -/
def FormErrorManager.hasError (m : FormErrorManager) (path : Option String) :
    Bool :=
  if !(jsTruthyStr path) then decide (0 < m.errors.length)
  else m.errors.any (fun e => e.path == path.getD "")

/-- Method getFirstFieldError: the message of the first stored error whose
path equals the argument exactly. -/
def FormErrorManager.getFirstFieldError (m : FormErrorManager)
    (path : String) : Option String :=
  (m.errors.find? (fun e => e.path == path)).bind (fun e => e.message)

/-- Method getErrorsForField: every stored error whose path equals the
argument exactly. -/
def FormErrorManager.getErrorsForField (m : FormErrorManager)
    (path : String) : List FieldError :=
  m.errors.filter (fun e => e.path == path)

/-- Static part of a FormSchema instance together with the opaque engine:
the declared field names (the keys of the normalized field schemas), the
refined field names, the per-field engine (fieldSchema.safeParseAsync on a
possibly-undefined raw value) and the whole-form engine (the combined schema
safeParseAsync on a raw input object). The type a is the raw value type and
b the parsed output type. -/
structure FormEnv (a b : Type) where
  declaredFields : List String
  refinedFields : List String
  fieldEngine : String → Option a → EngineResult b
  formEngine : (String → Option a) → EngineResult b

/-- Mutable part of a FormSchema instance: the raw input store, a partial
map from field name to raw value, and the error store contents. -/
structure FormState (a : Type) where
  rawInput : String → Option a
  errors : List FieldError

/-- Method _updateErrors: clear the whole store, then set the fields of the
given error; with an empty field list the store simply stays cleared, so the
net effect is always full replacement by the fields of the error. -/
def updateErrors {a : Type} (st : FormState a) (e : ValidationErr) :
    FormState a :=
  { st with errors := e.fields }

/-- ValidationError built for an unknown field name: exactly one
FIELD_UNKNOWN FieldError carrying the Unknown Field message. -/
def unknownFieldErr (name : String) : ValidationErr :=
  mkValidationErr [{ path := name
                     code := ValidationCode.FIELD_UNKNOWN
                     message := some ("Unknown Field: " ++ name)
                     origin := none }]

/-- Catch-clause field attribution in validate: the targeted field name when
truthy, else undefined. -/
def catchTarget : Option String → Option String
  | none => none
  | some f => if f == "" then none else some f

/-- Starts-with test on strings, written on the underlying character lists so
that it evaluates by structural recursion; it is the JS startsWith used by
the refined-field issue filter. -/
def strStartsWith (s pre : String) : Bool :=
  pre.data.isPrefixOf s.data

/-- Filter predicate of the refined-field branch: the dotted issue path
equals the target field or starts with the target field followed by a dot. -/
def refinedIssueFilter (f : String) (i : Issue) : Bool :=
  joinPath i.path == f || strStartsWith (joinPath i.path) (f ++ ".")

/-- Body of FormSchema.validate after the argument dispatch (the try block
plus the catch clause): an absent field means whole-input validation; a named
field is rejected when undeclared, funneled through the whole-form engine
plus the path filter when refined, and through its individual engine
otherwise; every engine exception is converted through
buildValidationErrorGeneric. -/
def validateCore {a b : Type} (env : FormEnv a b) (st : FormState a)
    (input : String → Option a) (field : Option String) (value : Option a)
    (clearAll : Bool) : Option ValidationErr × FormState a :=
  let st := if clearAll then { st with errors := [] } else st
  match field with
  | none =>
    match env.formEngine input with
    | .ok _ => (none, { st with errors := [] })
    | .issues il =>
      let e := buildValidationErrorIssues il
      (some e, updateErrors st e)
    | .exn m =>
      let e := buildValidationErrorGeneric (catchTarget none) m
      (some e, updateErrors st e)
  | some f =>
    if !(env.declaredFields.contains f) then
      let e := unknownFieldErr f
      (some e, updateErrors st e)
    else if env.refinedFields.contains f then
      match env.formEngine input with
      | .ok _ => (none, { st with errors := [] })
      | .issues il =>
        let fieldIssues := il.filter (refinedIssueFilter f)
        if 0 < fieldIssues.length then
          let e := buildValidationErrorIssues fieldIssues
          (some e, updateErrors st e)
        else (none, { st with errors := [] })
      | .exn m =>
        let e := buildValidationErrorGeneric (catchTarget (some f)) m
        (some e, updateErrors st e)
    else
      let v := match value with
        | some w => some w
        | none => input f
      match env.fieldEngine f v with
      | .ok _ => (none, { st with errors := [] })
      | .issues il =>
        let e := buildValidationErrorIssues il
        (some e, updateErrors st e)
      | .exn m =>
        let e := buildValidationErrorGeneric (catchTarget (some f)) m
        (some e, updateErrors st e)

/-- Runtime shape of the first argument of validate: undefined, a string
field name, an object, or anything else (which hits the invalid-arguments
branch). -/
inductive Arg1 (a : Type) where
  | undef
  | str (s : String)
  | obj (o : String → Option a)
  | other

/-- Spread override used by dispatch case 4: the current raw input with just
the named field overridden by the candidate value. -/
def overrideField {a : Type} (raw : String → Option a) (f : String) (v : a) :
    String → Option a :=
  fun k => if k == f then some v else raw k

/-- FormSchema.validate: the four-way dispatch on the runtime argument
shapes, then the shared body. Case 1 flags a full pre-clear, case 2 clears
the whole error store up front (the source comment says specific field, the
call is clearErrors), cases 3 and 4 skip the pre-clear; no case ever writes
the raw input store. The function is total: in the source every outcome is a
resolved promise, never a rejection. -/
def validate {a b : Type} (env : FormEnv a b) (st : FormState a)
    (arg1 : Arg1 a) (arg2 : Option a) : Option ValidationErr × FormState a :=
  match arg1, arg2 with
  | .undef, _ => validateCore env st st.rawInput none none true
  | .str s, none =>
    validateCore env { st with errors := [] } st.rawInput (some s) none false
  | .obj o, _ => validateCore env st o none none false
  | .str s, some v =>
    validateCore env st (overrideField st.rawInput s v) (some s) (some v) false
  | .other, _ =>
    let e := buildValidationErrorGeneric none
      "Invalid arguments provided to validate method."
    (some e, updateErrors st e)

/-- Failure channel of getValidatedValue: a thrown ValidationError, or a raw
engine rejection (the method body has no catch clause). -/
inductive GetValidatedFailure where
  | verr (e : ValidationErr)
  | raw (msg : String)
deriving DecidableEq

/-- FormSchema.getValidatedValue with no field argument: clear all errors,
run the whole-form engine on the raw input store, resolve with the parsed
data on success (clearing errors again), otherwise store the converted
errors and throw the aggregate. -/
def getValidatedValue {a b : Type} (env : FormEnv a b) (st : FormState a) :
    Except GetValidatedFailure b × FormState a :=
  let st := { st with errors := [] }
  match env.formEngine st.rawInput with
  | .ok d => (.ok d, { st with errors := [] })
  | .issues il =>
    let e := buildValidationErrorIssues il
    (.error (.verr e), updateErrors st e)
  | .exn m => (.error (.raw m), st)

/-- Object reference for the raw-input aliasing model: an allocation
identity plus the own fields; a JS spread expression allocates a new
identity carrying exactly the own fields of the source. -/
structure ObjRef (a : Type) where
  oid : Nat
  fields : String → Option a

/-- Instance state for the aliasing model: the internally owned raw input
object plus the allocation counter. -/
structure RawSlot (a : Type) where
  raw : ObjRef a
  next : Nat

/-- Spread copy: a freshly allocated object with exactly the own fields of
the source object. -/
def spreadCopy {a : Type} (src : ObjRef a) (fresh : Nat) : ObjRef a :=
  { oid := fresh, fields := src.fields }

/-- Raw-input effect of FormSchema.setRawValue: the store becomes a spread
copy of the argument; the fire-and-forget validation pass it triggers never
writes the raw input store (validate only reads it). -/
def setRawValueRef {a : Type} (st : RawSlot a) (v : ObjRef a) : RawSlot a :=
  { raw := spreadCopy v st.next, next := st.next + 1 }

/-- FormSchema.getRawValue with no field argument: a spread copy of the
internal raw input object, never the internal object itself. -/
def getRawValueRef {a : Type} (st : RawSlot a) : ObjRef a × RawSlot a :=
  (spreadCopy st.raw st.next, { st with next := st.next + 1 })

/-- Expected single-error aggregate produced by validate when the engine
throws with message m (or, for the invalid-argument shape, by the dispatch
itself): attributed to the targeted field when one was named and truthy,
else to the form-level empty path. -/
def unexpectedResult {a : Type} (arg1 : Arg1 a) (m : String) : ValidationErr :=
  match arg1 with
  | .other => buildValidationErrorGeneric none
      "Invalid arguments provided to validate method."
  | .str f => buildValidationErrorGeneric (catchTarget (some f)) m
  | _ => buildValidationErrorGeneric none m

/-- Concrete issue list for the C1 scenario: one issue reported by a scalar
per-field parse, whose path is the empty list. -/
def is1 : List Issue :=
  [{ path := [], code := "too_small", message := some "Too small", origin := none }]

/-- Concrete environment for C1: fields a and b, no refined fields, the rule
of a fails with is1 on every value. -/
def env1 : FormEnv String String :=
  { declaredFields := ["a", "b"]
    refinedFields := []
    fieldEngine := fun f _ => if f == "a" then .issues is1 else .ok "parsed"
    formEngine := fun _ => .ok "parsed" }

/-- Concrete state for C1: a pre-existing stored error for path b. -/
def st1 : FormState String :=
  { rawInput := fun k => if k == "a" then some "" else none
    errors := [{ path := "b", code := "custom", message := some "b is invalid",
                 origin := none }] }

/-- Concrete environment for C2: one declared field, the whole-form engine
accepts everything. -/
def env2 : FormEnv String String :=
  { declaredFields := ["a"]
    refinedFields := []
    fieldEngine := fun _ _ => .ok "parsed"
    formEngine := fun _ => .ok "parsed" }

/-- Concrete state for C2: a pre-existing stored error for path a. -/
def st2 : FormState String :=
  { rawInput := fun _ => none
    errors := [{ path := "a", code := "custom", message := some "a is invalid",
                 origin := none }] }

/-- Concrete issue list for C3: two issues on the target field p (one exact,
one dotted descendant) and one on the unrelated field q. -/
def is3 : List Issue :=
  [{ path := ["p"], code := "custom", message := some "Mismatch", origin := none },
   { path := ["q"], code := "too_small", message := some "Too small", origin := none },
   { path := ["p", "inner"], code := "custom", message := some "Inner", origin := none }]

/-- Concrete environment for C3: p is refined; whole-form validation reports
is3. -/
def env3 : FormEnv String String :=
  { declaredFields := ["p", "q"]
    refinedFields := ["p"]
    fieldEngine := fun _ _ => .ok "parsed"
    formEngine := fun _ => .issues is3 }

/-- Concrete state for C3. -/
def st3 : FormState String :=
  { rawInput := fun _ => some "x", errors := [] }

/-- Concrete environment for C4: fields a and b, engines accept everything. -/
def env4 : FormEnv String String :=
  { declaredFields := ["a", "b"]
    refinedFields := []
    fieldEngine := fun _ _ => .ok "parsed"
    formEngine := fun _ => .ok "parsed" }

/-- Concrete state for C4: a pre-existing stored error for path b. -/
def st4 : FormState String :=
  { rawInput := fun _ => none
    errors := [{ path := "b", code := "custom", message := some "b is invalid",
                 origin := none }] }

/-- Concrete environment for C5: every engine invocation throws. -/
def env5 : FormEnv String String :=
  { declaredFields := ["a"]
    refinedFields := []
    fieldEngine := fun _ _ => .exn "boom"
    formEngine := fun _ => .exn "boom" }

/-- Concrete state for C5. -/
def st5 : FormState String :=
  { rawInput := fun _ => none, errors := [] }

/-- Concrete environment for C6: the whole-form engine accepts the store. -/
def env6 : FormEnv String String :=
  { declaredFields := ["a"]
    refinedFields := []
    fieldEngine := fun _ _ => .ok "parsed"
    formEngine := fun _ => .ok "parsed" }

/-- Concrete state for C6: a stale stored error that must be gone after a
successful getValidatedValue. -/
def st6 : FormState String :=
  { rawInput := fun _ => some "v"
    errors := [{ path := "a", code := "stale", message := some "old",
                 origin := none }] }

/-- Concrete issue list for C7: one issue with an origin and a dotted path,
one form-level issue without origin or message. -/
def is7 : List Issue :=
  [{ path := ["user", "name"], code := "too_small", message := some "Required",
     origin := some "string" },
   { path := [], code := "custom", message := none, origin := none }]

/-- Concrete error store for C9: a single error stored under the non-empty
path a. -/
def m9 : FormErrorManager :=
  { errors := [{ path := "a", code := "REQUIRED", message := some "Name is required",
                 origin := none }] }

/-- Concrete environment for C10: the rule of field a rejects an undefined
value but accepts any present value, so the two dispatch readings differ. -/
def env10 : FormEnv String String :=
  { declaredFields := ["a"]
    refinedFields := []
    fieldEngine := fun _ v => match v with
      | some _ => .ok "parsed"
      | none => .issues [{ path := [], code := "invalid_type",
                           message := some "Required", origin := none }]
    formEngine := fun _ => .ok "parsed" }

/-- Concrete state for C10: field a currently holds the raw value x. -/
def st10 : FormState String :=
  { rawInput := fun k => if k == "a" then some "x" else none
    errors := [] }

/-- Helper: the accumulator length never shrinks along String.intercalate.go. -/
theorem intercalate_go_length_le (s : String) (l : List String) (acc : String) :
    acc.length ≤ (String.intercalate.go acc s l).length := by
  induction l generalizing acc with
  | nil => simp [String.intercalate.go]
  | cons a t ih =>
    calc acc.length ≤ (acc ++ s ++ a).length := by
          simp [String.length_append]; omega
      _ ≤ (String.intercalate.go (acc ++ s ++ a) s t).length := ih _
      _ = (String.intercalate.go acc s (a :: t)).length := by
          simp [String.intercalate.go]

/-- Helper: intercalating a list whose head is a non-empty string yields a
non-empty string. -/
theorem intercalate_cons_ne_empty (s a : String) (l : List String)
    (ha : a ≠ "") : String.intercalate s (a :: l) ≠ "" := by
  have h1 : a.length ≤ (String.intercalate s (a :: l)).length := by
    simpa [String.intercalate] using intercalate_go_length_le s l a
  intro h
  rw [h] at h1
  have h2 : a.length = 0 := Nat.le_zero.mp h1
  apply ha
  cases a with
  | mk data =>
    cases data with
    | nil => rfl
    | cons c cs => simp [String.length] at h2

/-- C1 counterexample: with a pre-existing error stored for path b,
internally validating the declared non-refined field a whose raw value fails
its own rule leaves the store holding one error under the issue-reported
path (the empty string, not a), and the pre-existing error for b is gone;
this refutes both the exactly-one-error-for-the-field-path part and the
other-paths-untouched part of the claim. -/
theorem c1_counterexample :
    (validate env1 st1 (.str "a") none).2.errors =
      [{ path := "", code := "too_small", message := some "Too small",
         origin := none }] ∧
    ({ path := "b", code := "custom", message := some "b is invalid",
       origin := none } : FieldError) ∉
      (validate env1 st1 (.str "a") none).2.errors ∧
    ∀ e ∈ (validate env1 st1 (.str "a") none).2.errors, e.path ≠ "a" := by
  decide

/-- C1 (amended): internally validating a declared, non-refined field whose
per-field engine run fails REPLACES the error store with exactly the
converted issues, stored under the issue-reported paths (for a scalar rule a
single error under the empty path, not under the field name); pre-existing
errors of other paths are cleared, and the raw input store is unchanged. -/
theorem c1_theorem {a b : Type} (env : FormEnv a b) (st : FormState a)
    (f : String) (il : List Issue)
    (hdecl : f ∈ env.declaredFields)
    (href : f ∉ env.refinedFields)
    (heng : env.fieldEngine f (st.rawInput f) = .issues il) :
    validate env st (.str f) none =
      (some (buildValidationErrorIssues il),
        { st with errors := il.map issueToFieldError }) := by
  simp [validate, validateCore, hdecl, href, heng, updateErrors,
    buildValidationErrorIssues, mkValidationErr]

/-- C1 witness: the amended theorem applied to the concrete scenario. -/
theorem c1_witness :
    "a" ∈ env1.declaredFields ∧
    "a" ∉ env1.refinedFields ∧
    env1.fieldEngine "a" (st1.rawInput "a") = .issues is1 ∧
    validate env1 st1 (.str "a") none =
      (some (buildValidationErrorIssues is1),
        { st1 with errors := is1.map issueToFieldError }) :=
  ⟨by decide, by decide, by decide,
    c1_theorem env1 st1 "a" is1 (by decide) (by decide) (by decide)⟩

/-- C2 counterexample: the side-channel check with an external input object
does mutate the error store of the instance: with a passing external input
the pre-existing stored error is cleared. -/
theorem c2_counterexample :
    (validate env2 st2 (.obj (fun _ => none)) none).2.errors ≠ st2.errors := by
  decide

/-- C2 (amended): the external full-input check leaves the raw input store
unchanged, but overwrites the error store with the outcome of the check:
cleared when the external input passes, replaced by the converted failure
errors when it fails, and replaced by the single UNEXPECTED error when the
engine throws. -/
theorem c2_theorem {a b : Type} (env : FormEnv a b) (st : FormState a)
    (o : String → Option a) (a2 : Option a) :
    (validate env st (.obj o) a2).2.rawInput = st.rawInput ∧
    (∀ d, env.formEngine o = .ok d →
      validate env st (.obj o) a2 = (none, { st with errors := [] })) ∧
    (∀ il, env.formEngine o = .issues il →
      validate env st (.obj o) a2 =
        (some (buildValidationErrorIssues il),
          { st with errors := il.map issueToFieldError })) ∧
    (∀ m, env.formEngine o = .exn m →
      validate env st (.obj o) a2 =
        (some (buildValidationErrorGeneric none m),
          { st with errors := (buildValidationErrorGeneric none m).fields })) := by
  refine ⟨?_, ?_, ?_, ?_⟩
  · cases h : env.formEngine o <;>
      simp [validate, validateCore, h, updateErrors]
  · intro d h
    simp [validate, validateCore, h]
  · intro il h
    simp [validate, validateCore, h, updateErrors, buildValidationErrorIssues,
      mkValidationErr]
  · intro m h
    simp [validate, validateCore, h, updateErrors, catchTarget]

/-- C2 witness: the amended theorem applied to the concrete scenario with a
passing external input. -/
theorem c2_witness :
    validate env2 st2 (.obj (fun _ => none)) none =
      (none, { st2 with errors := [] }) :=
  (c2_theorem env2 st2 (fun _ => none) none).2.1 "parsed" rfl

/-- C3: internally validating a declared refined field runs the whole-form
engine on the current raw input store and keeps only issues whose dotted
path equals the field or is a strict dot-prefixed descendant of it; with
zero surviving issues the call resolves undefined and clears the store even
though whole-form validation failed elsewhere, and every stored error path
is the field or a dotted descendant, so unrelated-field failures never
appear. -/
theorem c3_theorem {a b : Type} (env : FormEnv a b) (st : FormState a)
    (f : String) (il : List Issue)
    (hdecl : f ∈ env.declaredFields)
    (href : f ∈ env.refinedFields)
    (heng : env.formEngine st.rawInput = .issues il) :
    (il.filter (refinedIssueFilter f) = [] →
      validate env st (.str f) none = (none, { st with errors := [] })) ∧
    (il.filter (refinedIssueFilter f) ≠ [] →
      validate env st (.str f) none =
        (some (buildValidationErrorIssues (il.filter (refinedIssueFilter f))),
          { st with errors :=
              (il.filter (refinedIssueFilter f)).map issueToFieldError })) ∧
    (∀ e ∈ (il.filter (refinedIssueFilter f)).map issueToFieldError,
      e.path = f ∨ strStartsWith e.path (f ++ ".") = true) := by
  refine ⟨?_, ?_, ?_⟩
  · intro hnil
    simp [validate, validateCore, hdecl, href, heng, hnil]
  · intro hne
    have hpos : 0 < (il.filter (refinedIssueFilter f)).length :=
      List.length_pos.mpr hne
    simp [validate, validateCore, hdecl, href, heng, hpos, updateErrors,
      buildValidationErrorIssues, mkValidationErr]
  · intro e he
    obtain ⟨i, hi, rfl⟩ := List.mem_map.mp he
    have hp := (List.mem_filter.mp hi).2
    simp only [refinedIssueFilter, Bool.or_eq_true, beq_iff_eq] at hp
    simpa only [issueToFieldError] using hp

/-- C3 witness: the amended-free theorem applied to the concrete scenario
where the whole-form failure mixes target-field and unrelated issues. -/
theorem c3_witness :
    "p" ∈ env3.declaredFields ∧
    "p" ∈ env3.refinedFields ∧
    env3.formEngine st3.rawInput = .issues is3 ∧
    is3.filter (refinedIssueFilter "p") ≠ [] ∧
    validate env3 st3 (.str "p") none =
      (some (buildValidationErrorIssues (is3.filter (refinedIssueFilter "p"))),
        { st3 with errors :=
            (is3.filter (refinedIssueFilter "p")).map issueToFieldError }) :=
  ⟨by decide, by decide, rfl, by decide,
    (c3_theorem env3 st3 "p" is3 (by decide) (by decide) rfl).2.1 (by decide)⟩

/-- C4 counterexample: validating an unknown field name resolves with the
single FIELD_UNKNOWN error, but the pre-existing stored error of another
field is wiped out, refuting the does-not-affect-other-fields part of the
claim. -/
theorem c4_counterexample :
    (validate env4 st4 (.str "zzz") none).1 = some (unknownFieldErr "zzz") ∧
    ({ path := "b", code := "custom", message := some "b is invalid",
       origin := none } : FieldError) ∉
      (validate env4 st4 (.str "zzz") none).2.errors := by
  decide

/-- C4 (amended): validating an undeclared field name resolves (never
throws) with a ValidationError holding exactly one FieldError of code
FIELD_UNKNOWN and message Unknown Field prefixed to the name, and the error
store is REPLACED so that it holds only that error; stored errors of other
fields are cleared. -/
theorem c4_theorem {a b : Type} (env : FormEnv a b) (st : FormState a)
    (n : String) (h : n ∉ env.declaredFields) :
    validate env st (.str n) none =
      (some (unknownFieldErr n),
        { st with errors :=
            [{ path := n, code := ValidationCode.FIELD_UNKNOWN,
               message := some ("Unknown Field: " ++ n), origin := none }] }) ∧
    (unknownFieldErr n).fields =
      [{ path := n, code := ValidationCode.FIELD_UNKNOWN,
         message := some ("Unknown Field: " ++ n), origin := none }] := by
  constructor
  · simp [validate, validateCore, h, updateErrors, unknownFieldErr,
      mkValidationErr]
  · simp [unknownFieldErr, mkValidationErr]

/-- C4 witness: the amended theorem applied to the concrete scenario. -/
theorem c4_witness :
    "zzz" ∉ env4.declaredFields ∧
    (unknownFieldErr "zzz").fields =
      [{ path := "zzz", code := ValidationCode.FIELD_UNKNOWN,
         message := some ("Unknown Field: " ++ "zzz"), origin := none }] :=
  ⟨by decide, (c4_theorem env4 st4 "zzz" (by decide)).2⟩

/-- C5: validate never rejects (in this embedding it is a total function,
mirroring that every source outcome is a resolved promise), and whenever the
engine throws with message m the result is the aggregate holding exactly one
FieldError of code UNEXPECTED whose path is the targeted field when one was
named (and truthy), else the form-level empty path; the invalid-argument
shape likewise resolves with a single form-level UNEXPECTED error. -/
theorem c5_theorem {a b : Type} (env : FormEnv a b) (st : FormState a)
    (arg1 : Arg1 a) (a2 : Option a) (m : String)
    (hfe : ∀ f v, env.fieldEngine f v = .exn m)
    (hfo : ∀ i, env.formEngine i = .exn m)
    (hdecl : ∀ f, arg1 = .str f → f ∈ env.declaredFields) :
    (validate env st arg1 a2).1 = some (unexpectedResult arg1 m) ∧
    (validate env st arg1 a2).2.errors = (unexpectedResult arg1 m).fields := by
  cases arg1 with
  | undef =>
    constructor <;>
      simp [validate, validateCore, hfo, unexpectedResult, updateErrors,
        catchTarget]
  | obj o =>
    constructor <;>
      simp [validate, validateCore, hfo, unexpectedResult, updateErrors,
        catchTarget]
  | other =>
    constructor <;> simp [validate, unexpectedResult, updateErrors]
  | str f =>
    have hd := hdecl f rfl
    cases a2 <;> by_cases hr : f ∈ env.refinedFields <;>
      constructor <;>
      simp [validate, validateCore, hd, hr, hfe, hfo, unexpectedResult,
        updateErrors]

/-- C5 witness: the theorem applied to a concrete throwing engine with a
named declared field. -/
theorem c5_witness :
    (validate env5 st5 (.str "a") none).1 =
      some (unexpectedResult (Arg1.str "a" : Arg1 String) "boom") :=
  (c5_theorem env5 st5 (.str "a") none "boom" (fun _ _ => rfl) (fun _ => rfl)
    (fun f h => by cases h; decide)).1

/-- C6: getValidatedValue with no field on a store the whole-form engine
accepts resolves with the parsed data and leaves the error store empty; on a
store the engine rejects it throws the aggregate ValidationError whose
FieldError list is exactly the one-to-one image of the reported issues. -/
theorem c6_theorem {a b : Type} (env : FormEnv a b) (st : FormState a) :
    (∀ d, env.formEngine st.rawInput = .ok d →
      getValidatedValue env st = (.ok d, { st with errors := [] })) ∧
    (∀ il, env.formEngine st.rawInput = .issues il →
      getValidatedValue env st =
        (.error (.verr (buildValidationErrorIssues il)),
          { st with errors := il.map issueToFieldError }) ∧
      (buildValidationErrorIssues il).fields = il.map issueToFieldError) := by
  constructor
  · intro d h
    simp [getValidatedValue, h]
  · intro il h
    constructor
    · simp [getValidatedValue, h, updateErrors, buildValidationErrorIssues,
        mkValidationErr]
    · simp [buildValidationErrorIssues, mkValidationErr]

/-- C6 witness: the theorem applied to a concrete accepting engine with a
stale stored error. -/
theorem c6_witness :
    getValidatedValue env6 st6 = (.ok "parsed", { st6 with errors := [] }) :=
  (c6_theorem env6 st6).1 "parsed" rfl

/-- C7: for a non-empty engine failure whose issues have non-empty codes and
no empty origin (the engine issue format), every issue becomes a FieldError
whose path is the dot-joined segments, whose code is origin dot code when an
origin is present and the code alone otherwise, with the message passed
through; and the aggregate default message is the path-colon-message pairs
joined with comma-space. -/
theorem c7_theorem (il : List Issue) (hne : il ≠ [])
    (hcode : ∀ i ∈ il, i.code ≠ "")
    (horig : ∀ i ∈ il, i.origin ≠ some "") :
    (buildValidationErrorIssues il).fields = il.map issueToFieldError ∧
    (∀ i ∈ il, issueToFieldError i =
      { path := String.intercalate "." i.path
        code := match i.origin with
                | some o => o ++ "." ++ i.code
                | none => i.code
        message := i.message
        origin := i.origin }) ∧
    (buildValidationErrorIssues il).message =
      String.intercalate ", "
        ((il.map issueToFieldError).map
          (fun f => f.path ++ ": " ++ jsInterp f.message)) := by
  refine ⟨rfl, ?_, ?_⟩
  · intro i hi
    have hc := hcode i hi
    have ho := horig i hi
    have hc' : (i.code == "") = false := beq_eq_false_iff_ne.mpr hc
    cases hor : i.origin with
    | none =>
      simp [issueToFieldError, combinedCode, joinPath, jsTruthyStr, hor]
    | some o =>
      have ho' : o ≠ "" := by
        intro h
        exact ho (by rw [hor, h])
      have ho'' : (o == "") = false := beq_eq_false_iff_ne.mpr ho'
      simp [issueToFieldError, combinedCode, joinPath, jsTruthyStr, hor, ho'',
        hc']
  · obtain ⟨i0, t, rfl⟩ : ∃ i0 t, il = i0 :: t := by
      cases il with
      | nil => exact absurd rfl hne
      | cons x xs => exact ⟨x, xs, rfl⟩
    have hne0 :
        ((issueToFieldError i0).path ++ ": " ++
          jsInterp (issueToFieldError i0).message) ≠ "" := by
      intro h
      have hlen := congrArg String.length h
      simp [String.length_append] at hlen
      exact absurd hlen.1.2 (by decide)
    have hj : String.intercalate ", "
        (((i0 :: t).map issueToFieldError).map
          (fun f => f.path ++ ": " ++ jsInterp f.message)) ≠ "" := by
      simp only [List.map_cons]
      exact intercalate_cons_ne_empty _ _ _ hne0
    have hj' : (String.intercalate ", "
        (((i0 :: t).map issueToFieldError).map
          (fun f => f.path ++ ": " ++ jsInterp f.message)) == "") = false :=
      beq_eq_false_iff_ne.mpr hj
    simp only [buildValidationErrorIssues, mkValidationErr, defaultMessage]
    rw [hj']
    simp

/-- C7 witness: the theorem applied to a concrete issue list with an origin
issue and a form-level issue without message. -/
theorem c7_witness :
    is7 ≠ [] ∧ (∀ i ∈ is7, i.code ≠ "") ∧ (∀ i ∈ is7, i.origin ≠ some "") ∧
    (buildValidationErrorIssues is7).message =
      String.intercalate ", "
        ((is7.map issueToFieldError).map
          (fun f => f.path ++ ": " ++ jsInterp f.message)) :=
  ⟨by decide, by decide, by decide,
    (c7_theorem is7 (by decide) (by decide) (by decide)).2.2⟩

/-- C8: setRawValue followed immediately by getRawValue returns an object
whose fields are exactly those of the argument (full replacement, nothing of
the prior store survives) and whose identity differs from the internal
store, a fresh shallow copy rather than the shared internal object. -/
theorem c8_theorem {a : Type} (st : RawSlot a) (v : ObjRef a) :
    (∀ k, (getRawValueRef (setRawValueRef st v)).1.fields k = v.fields k) ∧
    (getRawValueRef (setRawValueRef st v)).1.oid ≠
      (setRawValueRef st v).raw.oid := by
  constructor
  · intro k
    rfl
  · simp [getRawValueRef, setRawValueRef, spreadCopy]

/-- C9 counterexample: hasError with the empty-string path reports true on a
store whose only error lives at the non-empty path a, so the query does not
match by exact string equality on every path. -/
theorem c9_counterexample :
    FormErrorManager.hasError m9 (some "") = true ∧
    ∀ e ∈ m9.errors, e.path ≠ "" := by
  decide

/-- C9 (amended): for every NON-EMPTY path the three queries match by exact
string equality (so descendant-path errors are never reported for a parent
path); hasError with the empty-string path degenerates to the no-argument
form, which is true exactly when any error exists; getErrorsForField and
getFirstFieldError use exact equality for every path including the empty
one. -/
theorem c9_theorem (m : FormErrorManager) (p q : String) (hp : p ≠ "") :
    (m.hasError (some p) = true ↔ ∃ e ∈ m.errors, e.path = p) ∧
    (m.hasError none = true ↔ m.errors ≠ []) ∧
    (m.hasError (some "") = m.hasError none) ∧
    (∀ e, e ∈ m.getErrorsForField q ↔ e ∈ m.errors ∧ e.path = q) ∧
    ((∀ e ∈ m.errors, e.path ≠ q) → m.getFirstFieldError q = none) := by
  have hp' : (p == "") = false := beq_eq_false_iff_ne.mpr hp
  refine ⟨?_, ?_, ?_, ?_, ?_⟩
  · simp [FormErrorManager.hasError, jsTruthyStr, hp', List.any_eq_true]
  · simp [FormErrorManager.hasError, jsTruthyStr, List.length_pos]
  · simp [FormErrorManager.hasError, jsTruthyStr]
  · intro e
    simp [FormErrorManager.getErrorsForField, List.mem_filter]
  · intro h
    have hfind : m.errors.find? (fun e => e.path == q) = none :=
      List.find?_eq_none.mpr (fun x hx => by simpa using h x hx)
    simp [FormErrorManager.getFirstFieldError, hfind]

/-- C9 witness: the amended theorem applied to the concrete store at a
non-empty path. -/
theorem c9_witness :
    FormErrorManager.hasError m9 (some "a") = true ↔
      ∃ e ∈ m9.errors, e.path = "a" :=
  (c9_theorem m9 "a" "x" (by decide)).1

/-- C10: calling validate with a declared non-refined field name and an
explicit undefined candidate (arg2 none) is dispatched as the internal-value
case: the per-field engine is consulted on the value currently stored in the
raw input store (here some v), never on the undefined candidate, so
undefined can never be checked externally through the two-argument form. -/
theorem c10_theorem {a b : Type} (env : FormEnv a b) (st : FormState a)
    (f : String) (v : a)
    (hdecl : f ∈ env.declaredFields)
    (href : f ∉ env.refinedFields)
    (hval : st.rawInput f = some v) :
    (validate env st (.str f) none).1 =
      (match env.fieldEngine f (some v) with
       | .ok _ => none
       | .issues il => some (buildValidationErrorIssues il)
       | .exn m => some (buildValidationErrorGeneric (catchTarget (some f)) m)) := by
  cases h : env.fieldEngine f (some v) <;>
    simp [validate, validateCore, hdecl, href, hval, h,
      buildValidationErrorIssues, mkValidationErr]

/-- C10 witness: the theorem applied to an engine that rejects undefined but
accepts the stored value, so the resolved outcome proves the stored value
was the one consulted. -/
theorem c10_witness :
    "a" ∈ env10.declaredFields ∧
    "a" ∉ env10.refinedFields ∧
    st10.rawInput "a" = some "x" ∧
    (validate env10 st10 (.str "a") none).1 =
      (match env10.fieldEngine "a" (some "x") with
       | .ok _ => none
       | .issues il => some (buildValidationErrorIssues il)
       | .exn m => some (buildValidationErrorGeneric (catchTarget (some "a")) m)) :=
  ⟨by decide, by decide, by decide,
    c10_theorem env10 st10 "a" "x" (by decide) (by decide) (by decide)⟩
